import Mathlib

/-!
Shallow embedding of the kiwoom weekly-option auto-trading program
(`src/strategy.py`, `src/kiwoom_api.py`, `src/main.py`, `src/config.py`).

Modelling conventions:
* A pandas price DataFrame is represented by its `close` column, a
  chronological `List ℚ` whose last element is the latest bar
  (`iloc[-1]` becomes `List.getLast?`).
* A pandas Series produced by a rolling computation is a
  `List (Option _)` of the same length as the input; `none` stands for
  the `NaN` entries that pandas puts at indices where the window has
  fewer observations than `min_periods`.  Elementwise arithmetic on
  series propagates `none` exactly as float arithmetic propagates NaN,
  and every comparison involving a `none` is false, exactly as every
  float comparison involving NaN is false.
* Moving averages stay in `ℚ`; the Bollinger standard deviation needs a
  square root, so std-derived series live in `ℝ` via `Real.sqrt` on the
  (rational) sample variance.
* Python methods that may mutate `self` are state-passing functions
  `State → Result × State`; methods that only read state take the state
  and return the result together with the unchanged state.
-/

/-- The trailing window of at most `w` elements of `l` ending at index `i`
(pandas: the observations a rolling window of size `w` sees at row `i`). -/
def window (l : List α) (w i : ℕ) : List α :=
  (l.take (i + 1)).drop (i + 1 - w)

/-- Arithmetic mean of a list of rationals (0 on the empty list; only ever
applied to full windows in this development). -/
def meanQ (l : List ℚ) : ℚ := l.sum / l.length

/-- Sample (Bessel-corrected, `ddof=1`) variance, mirroring pandas
`Series.rolling(w).std()` before the square root. -/
def sampleVarQ (l : List ℚ) : ℚ :=
  (l.map (fun x => (x - meanQ l) ^ 2)).sum / ((l.length : ℚ) - 1)

/-- Sample standard deviation of a window, as a real number. -/
noncomputable def sampleStd (l : List ℚ) : ℝ := Real.sqrt ((sampleVarQ l : ℚ) : ℝ)

/-- `series.rolling(window=w).mean()`-style operator: apply `f` to each
trailing window, `none` (NaN) while fewer than `w` observations exist
(pandas default `min_periods = window`). -/
def rollingQ (f : List ℚ → ℚ) (w : ℕ) (l : List ℚ) : List (Option ℚ) :=
  (List.range l.length).map (fun i => if w ≤ i + 1 then some (f (window l w i)) else none)

/-- Real-valued rolling operator (used for the rolling standard deviation). -/
def rollingR (f : List ℚ → ℝ) (w : ℕ) (l : List ℚ) : List (Option ℝ) :=
  (List.range l.length).map (fun i => if w ≤ i + 1 then some (f (window l w i)) else none)

/-- NaN-propagating binary operation on two aligned series entries. -/
def omap2 (f : α → α → α) : Option α → Option α → Option α
  | some x, some y => some (f x y)
  | _, _ => none

/-- Elementwise NaN-propagating combination of two aligned series. -/
def zipSeries (f : α → α → α) (a b : List (Option α)) : List (Option α) :=
  List.zipWith (omap2 f) a b

/-- Float comparison `a <= b` where either side may be NaN: false on NaN. -/
def oleQ : Option ℚ → Option ℚ → Prop
  | some x, some y => x ≤ y
  | _, _ => False

/-- Real-valued variant of `oleQ`. -/
def oleR : Option ℝ → Option ℝ → Prop
  | some x, some y => x ≤ y
  | _, _ => False

/-- Minimum of a list of reals, `none` when the list is empty (pandas
`min` over the non-NaN observations of a window). -/
def listMinR : List ℝ → Option ℝ
  | [] => none
  | x :: xs => some (xs.foldl min x)

/-- `series.rolling(window=w, min_periods=mp).min()`: at each index, the
minimum of the non-NaN observations in the trailing window, provided at
least `mp` of them exist (pandas counts non-NaN observations against
`min_periods`). -/
def rollingMinR (w mp : ℕ) (l : List (Option ℝ)) : List (Option ℝ) :=
  (List.range l.length).map (fun i =>
    let vals := (window l w i).filterMap id
    if mp ≤ vals.length then listMinR vals else none)

/-- `iloc[-1]` for a plain float column (guarded by length checks at
every use site in the source, so the default is never taken there). -/
def ilocLastQ (l : List ℚ) : ℚ := (l.getLast?).getD 0

/-- `iloc[-1]` for a rolling result column: the last entry, which may
itself be NaN. -/
def ilocLastO (l : List (Option α)) : Option α := (l.getLast?).bind id

/-! ## `src/strategy.py` — `OptionTradingStrategy` -/

/-- A held position, `strategy.py` lines 155-160 (`quantity` fixed at 1
by the source; `entry_time` abstracted to a natural-number timestamp). -/
structure StratPosition where
  code : String
  entry_price : ℚ
  entry_time : ℕ
  quantity : ℕ
  deriving DecidableEq

/-- Mutable state of `OptionTradingStrategy` (`__init__`, lines 28-32). -/
structure Strategy where
  position : Option StratPosition
  entry_price : ℚ
  entry_time : Option ℕ
  price_data : List ℚ
  deriving DecidableEq

/-- `OptionTradingStrategy.__init__` state initialisation. -/
def Strategy.init : Strategy :=
  { position := none, entry_price := 0, entry_time := none, price_data := [] }

/-- Strategy parameters, `strategy.py` lines 11-26. -/
def maPeriod1 : ℕ := 5
def maPeriod2 : ℕ := 20
def maPeriod3 : ℕ := 60
def bollPeriod : ℕ := 20
def bollMult : ℚ := 2
def lookbackPeriod : ℕ := 100
def exitMaPeriod : ℕ := 10
def stopLossRate : ℚ := 1 / 10
def priceRangeLo : ℚ := 1 / 10
def priceRangeHi : ℚ := 3 / 10

/-- `OptionTradingStrategy.update_price_data`. -/
def update_price_data (st : Strategy) (d : List ℚ) : Strategy :=
  { st with price_data := d }

/-- `OptionTradingStrategy.calculate_ma_convergence` (lines 38-55):
three rolling SMAs, elementwise max minus elementwise min
(`np.maximum`/`np.minimum` propagate NaN); `none` for the whole result
when fewer than `period3` bars exist. -/
def calculate_ma_convergence (prices : List ℚ) :
    Option (List (Option ℚ) × List (Option ℚ) × List (Option ℚ) × List (Option ℚ)) :=
  if prices.length < maPeriod3 then none
  else
    let ma1 := rollingQ meanQ maPeriod1 prices
    let ma2 := rollingQ meanQ maPeriod2 prices
    let ma3 := rollingQ meanQ maPeriod3 prices
    let max_ma := zipSeries max ma1 (zipSeries max ma2 ma3)
    let min_ma := zipSeries min ma1 (zipSeries min ma2 ma3)
    let convergence_value := zipSeries (· - ·) max_ma min_ma
    some (ma1, ma2, ma3, convergence_value)

/-- `OptionTradingStrategy.calculate_bollinger_bands` (lines 57-80):
rolling SMA ± `mult`·(rolling sample std), bandwidth = upper − lower,
and — only when at least `lookback_period` rows exist — the rolling
minimum (default `min_periods = window`) of the bandwidth.  `none` for
the whole result when fewer than `period` bars exist; the fourth
component is `none` when the lookback guard fails. -/
noncomputable def calculate_bollinger_bands (prices : List ℚ) :
    Option (List (Option ℝ) × List (Option ℝ) × List (Option ℝ) × Option (List (Option ℝ))) :=
  if prices.length < bollPeriod then none
  else
    let sma := rollingR (fun l => ((meanQ l : ℚ) : ℝ)) bollPeriod prices
    let std := rollingR sampleStd bollPeriod prices
    let upper_band := zipSeries (fun s d => s + d * (bollMult : ℝ)) sma std
    let lower_band := zipSeries (fun s d => s - d * (bollMult : ℝ)) sma std
    let current_bandwidth := zipSeries (· - ·) upper_band lower_band
    let historical_lowest :=
      if lookbackPeriod ≤ current_bandwidth.length then
        some (rollingMinR lookbackPeriod lookbackPeriod current_bandwidth)
      else none
    some (upper_band, lower_band, current_bandwidth, historical_lowest)

/-- `OptionTradingStrategy.check_buy_conditions` (lines 82-118): both
the convergence threshold (1 % of the current price) and the squeeze
condition (current bandwidth within 110 % of the historical minimum)
must hold; every early `return False` of the source is a `False` branch
here, and NaN comparisons are false. -/
def check_buy_conditions (st : Strategy) : Prop :=
  if st.price_data.length < max maPeriod3 lookbackPeriod then False
  else
    match calculate_ma_convergence st.price_data with
    | none => False
    | some (_, _, _, convergence) =>
      match calculate_bollinger_bands st.price_data with
      | none => False
      | some (_, _, current_bw, historical_lowest_bw) =>
        match historical_lowest_bw with
        | none => False
        | some hist =>
          let current_convergence := ilocLastO convergence
          let current_bandwidth := ilocLastO current_bw
          let historical_min_bandwidth := ilocLastO hist
          let current_price := ilocLastQ st.price_data
          oleQ current_convergence (some (current_price * (1 / 100))) ∧
            oleR current_bandwidth (historical_min_bandwidth.map (· * (11 / 10)))

/-- Exit reasons returned (as formatted strings) by
`check_sell_conditions`; the payload is the rate the source interpolates
into the message. -/
inductive SellReason
  | noPosition
  | insufficientData
  | stopLoss (lossRate : ℚ)
  | maBreak (profitRate : ℚ)
  | notMet
  deriving DecidableEq

/-- `OptionTradingStrategy.check_sell_conditions` (lines 120-143):
stop-loss is tested first, then the close-below-10-bar-SMA trend exit. -/
def check_sell_conditions (st : Strategy) : Bool × SellReason :=
  match st.position with
  | none => (false, .noPosition)
  | some _ =>
    if st.price_data.length < exitMaPeriod then (false, .insufficientData)
    else
      let current_price := ilocLastQ st.price_data
      let loss_rate := (st.entry_price - current_price) / st.entry_price
      if stopLossRate ≤ loss_rate then (true, .stopLoss loss_rate)
      else
        let exit_ma := rollingQ meanQ exitMaPeriod st.price_data
        let current_ma := (ilocLastO exit_ma).getD 0
        if current_price < current_ma then
          (true, .maBreak ((current_price - st.entry_price) / st.entry_price))
        else (false, .notMet)

/-- `OptionTradingStrategy.is_valid_option_price` (lines 145-147). -/
def is_valid_option_price (price : ℚ) : Prop :=
  priceRangeLo ≤ price ∧ price ≤ priceRangeHi

instance (price : ℚ) : Decidable (is_valid_option_price price) :=
  inferInstanceAs (Decidable (_ ∧ _))

/-- `OptionTradingStrategy.enter_position` (lines 149-166); `now` stands
for the `datetime.now()` calls. -/
def enter_position (st : Strategy) (option_code : String) (current_price : ℚ)
    (now : ℕ) : Bool × Strategy :=
  if is_valid_option_price current_price then
    (true,
      { st with
        position := some
          { code := option_code, entry_price := current_price,
            entry_time := now, quantity := 1 }
        entry_price := current_price
        entry_time := some now })
  else (false, st)

/-- `OptionTradingStrategy.exit_position` (lines 168-185): the profit
computation feeds only the log line; the state effect clears the
position fields. -/
def exit_position (st : Strategy) : Bool × Strategy :=
  match st.position with
  | none => (false, st)
  | some _ =>
    (true, { st with position := none, entry_price := 0, entry_time := none })

/-- Trading signals returned by `get_signal` (the source returns the
strings `"BUY"` / `"HOLD"` or the pair `("SELL", reason)`). -/
inductive Signal
  | buy
  | sell (reason : SellReason)
  | hold
  deriving DecidableEq

open Classical in
/-- `OptionTradingStrategy.get_signal` (lines 187-199), state-passing:
the method assigns no attribute, so the returned state is the input
state in every branch. -/
noncomputable def get_signal (st : Strategy) : Signal × Strategy :=
  match st.position with
  | none => if check_buy_conditions st then (.buy, st) else (.hold, st)
  | some _ =>
    let sr := check_sell_conditions st
    if sr.1 then (.sell sr.2, st) else (.hold, st)

/-- Status record built by `get_strategy_status` (lines 223-238); the
unrealized fields are present only when a position exists and price data
is nonempty. -/
structure StrategyStatus where
  position : Option StratPosition
  entry_price : ℚ
  entry_time : Option ℕ
  data_length : ℕ
  unrealized_pnl : Option ℚ
  unrealized_rate : Option ℚ

/-- `OptionTradingStrategy.get_strategy_status`: the unrealized rate
divides by `entry_price` whenever a position exists. -/
def get_strategy_status (st : Strategy) : StrategyStatus :=
  let base : StrategyStatus :=
    { position := st.position, entry_price := st.entry_price,
      entry_time := st.entry_time, data_length := st.price_data.length,
      unrealized_pnl := none, unrealized_rate := none }
  if st.position.isSome ∧ st.price_data ≠ [] then
    let current_price := ilocLastQ st.price_data
    { base with
      unrealized_pnl := some (current_price - st.entry_price)
      unrealized_rate := some ((current_price - st.entry_price) / st.entry_price) }
  else base

/-! ## `src/kiwoom_api.py` — `KiwoomAPI` -/

/-- Order side (`order_type` strings `"BUY"` / `"SELL"` in the source). -/
inductive OrderSide
  | buy
  | sell
  deriving DecidableEq

/-- `send_order` line 243: `"1"` for a new buy, `"2"` for a new sell. -/
def orderTypeCode : OrderSide → String
  | .buy => "1"
  | .sell => "2"

/-- The broker/market collaborator behind `self.kiwoom`: everything the
embedded `KiwoomAPI` methods observe from or emit to the outside world.
`sendRaw` is `self.kiwoom.send_order` reduced to the arguments the code
varies (instrument code, order-type code, quantity, price, hoga type)
and its integer result code (0 = accepted). -/
structure Market where
  currentPrice : String → ℤ
  bid : String → ℤ
  ask : String → ℤ
  sendRaw : String → String → ℕ → ℤ → String → ℤ
  minuteData : String → List ℚ

/-- `KiwoomAPI.get_bid_ask_price` (lines 284-295): the pair
(best bid, best ask); `0` signals an unavailable quote. -/
def get_bid_ask_price (env : Market) (code : String) : ℤ × ℤ :=
  (env.bid code, env.ask code)

/-- `KiwoomAPI.send_order` (lines 239-272): price 0 selects hoga type
`"03"` (market order), any other price selects `"00"` (limit order);
the call succeeds iff the raw result code is 0. -/
def send_order (env : Market) (code : String) (order_type : OrderSide)
    (quantity : ℕ) (price : ℤ) : Bool :=
  let hoga_gubun := if price = 0 then "03" else "00"
  env.sendRaw code (orderTypeCode order_type) quantity price hoga_gubun = 0

/-- Price submitted at a given ladder `attempt` (lines 310-313):
buys walk up and sells walk down in steps of 5 from the base price. -/
def orderPrice (order_type : OrderSide) (base_price : ℤ) (attempt : ℕ) : ℤ :=
  match order_type with
  | .buy => base_price + attempt * 5
  | .sell => base_price - attempt * 5

/-- The retry loop of `smart_order` (lines 309-326), with the current
attempt index and the remaining fuel (`max_attempts - attempt`) made
explicit.  Returns the final result together with the trace of prices
actually submitted: submission stops at the first accepted order. -/
def smartOrderGo (submit : ℤ → Bool) (order_type : OrderSide) (base_price : ℤ) :
    ℕ → ℕ → Bool × List ℤ
  | _, 0 => (false, [])
  | attempt, fuel + 1 =>
    let p := orderPrice order_type base_price attempt
    if submit p then (true, [p])
    else
      let rest := smartOrderGo submit order_type base_price (attempt + 1) fuel
      (rest.1, p :: rest.2)

/-- `KiwoomAPI.smart_order` (lines 297-326): seed the base price from
the ask (buy) or bid (sell) when positive, else from the last trade
price, then walk the ladder; the Boolean is the method's return value
and the list is the trace of submitted prices. -/
def smart_order (env : Market) (code : String) (order_type : OrderSide)
    (quantity : ℕ) (max_attempts : ℕ) : Bool × List ℤ :=
  let current_price := env.currentPrice code
  let ba := get_bid_ask_price env code
  let base_price :=
    match order_type with
    | .buy => if 0 < ba.2 then ba.2 else current_price
    | .sell => if 0 < ba.1 then ba.1 else current_price
  smartOrderGo (fun p => send_order env code order_type quantity p)
    order_type base_price 0 max_attempts

/-- Modelled from the spec (§4.3 step 3): the ladder of candidate limit
prices `basePrice ± stepSize*attempt` for `attempt` in
`0 .. maxAttempts-1`, in that order.  Used only to compare the source's
`smart_order` against the spec's description. -/
def specLadder (order_type : OrderSide) (base_price : ℤ) (max_attempts : ℕ) : List ℤ :=
  (List.range max_attempts).map (orderPrice order_type base_price)

/-- Modelled from the spec (§4.3 steps 3-6): submit the candidate prices
in order, stop with success at the first acknowledged submission, fail
after the whole list is exhausted. -/
def specScan (submit : ℤ → Bool) : List ℤ → Bool × List ℤ
  | [] => (false, [])
  | p :: ps =>
    if submit p then (true, [p])
    else
      let rest := specScan submit ps
      (rest.1, p :: rest.2)

/-- Modelled from the spec (§4.3 step 2) and `smart_order` lines 302-307:
the seeded base price — the ask when positive else the last trade price
for BUY, the bid when positive else the last trade price for SELL. -/
def smartBasePrice (env : Market) (code : String) : OrderSide → ℤ
  | .buy => if 0 < env.ask code then env.ask code else env.currentPrice code
  | .sell => if 0 < env.bid code then env.bid code else env.currentPrice code

/-- `KiwoomAPI.calculate_bollinger_bands` (lines 200-211): the indicator
columns added to the DataFrame, or `none` when the guard
`len(df) < period` leaves the DataFrame unchanged (columns absent).
Components: MA, STD, BB_Upper, BB_Lower, BB_Width. -/
noncomputable def kiwoom_calculate_bollinger_bands (close : List ℚ) :
    Option (List (Option ℝ) × List (Option ℝ) × List (Option ℝ) ×
      List (Option ℝ) × List (Option ℝ)) :=
  if close.length < bollPeriod then none
  else
    let ma := rollingR (fun l => ((meanQ l : ℚ) : ℝ)) bollPeriod close
    let std := rollingR sampleStd bollPeriod close
    let upper := zipSeries (fun m s => m + s * (2 : ℝ)) ma std
    let lower := zipSeries (fun m s => m - s * (2 : ℝ)) ma std
    let width := zipSeries (· - ·) upper lower
    some (ma, std, upper, lower, width)

/-- `KiwoomAPI.calculate_historical_bb_width` (lines 229-237), applied
to a DataFrame whose `BB_Width` column is `bb_width`: when the guard
`len(df) < lookback_period` triggers, the DataFrame is returned without
the `Historical_Min_BB_Width` column (modelled as `none`); otherwise the
column is the rolling minimum of `BB_Width` with `min_periods=1`. -/
def calculate_historical_bb_width (close : List ℚ) (bb_width : List (Option ℝ)) :
    Option (List (Option ℝ)) :=
  if close.length < lookbackPeriod then none
  else some (rollingMinR lookbackPeriod 1 bb_width)

/-! ## `src/main.py` — `AutoTrader` -/

/-- An entry of `AutoTrader.positions` (line 134-140; `entry_time` and
`option_info` are unused by the sell path and omitted). -/
structure MainPosition where
  name : String
  quantity : ℕ
  entry_price : ℚ
  deriving DecidableEq

/-- `AutoTrader` state relevant to the claims: the insertion-ordered
position map `{code: position}`. -/
structure Trader where
  positions : List (String × MainPosition)
  deriving DecidableEq

/-- Sell reasons of `main.py` lines 192-198 (only the trend reason is
ever assigned before the body raises, see `sellSignalStep`). -/
inductive MainSellReason
  | maBreak
  | noneYet
  deriving DecidableEq

/-- The exception raised by the sell path of `main.py`: line 204 reads
`self.config.STOP_LOSS_PCT`, but the `Config` class in `config.py`
defines no such attribute — the 10 % threshold exists only as the dict
entry `TRADING_STRATEGY['sell_conditions']['stop_loss_percent']`, and
nothing assigns `STOP_LOSS_PCT` — so the attribute lookup raises
`AttributeError`. -/
inductive MainAttrError
  | stopLossPctMissing
  deriving DecidableEq

/-- `AutoTrader.execute_sell_order` (lines 220-243): submits the smart
order and returns its success flag; the P&L block only logs, and the
position map is untouched here. -/
def execute_sell_order (env : Market) (code : String) (pos : MainPosition) : Bool :=
  (smart_order env code .sell pos.quantity 5).1

/-- The per-position body of `AutoTrader.check_sell_signals`
(lines 172-206): `Except.ok false` models the two `continue` guards
(zero current price; empty or short data), `Except.ok true` would mean
"sell and mark for deletion", and `Except.error` models an exception
escaping the body.  The 10-bar mean, the latest close, the trend test
(lines 186-198) and the loss percentage (lines 201-202) are all
computed, but the stop-loss comparison at line 204 then evaluates
`self.config.STOP_LOSS_PCT` and raises `AttributeError`
(see `MainAttrError`) before the `should_sell` gate at line 209 can be
reached. -/
def sellSignalStep (env : Market) (code : String) (pos : MainPosition) :
    Except MainAttrError Bool :=
  let current_price := env.currentPrice code
  if current_price = 0 then .ok false
  else
    let df := env.minuteData code
    if df = [] ∨ df.length < 10 then .ok false
    else
      let latest_ma10 := (ilocLastO (rollingQ meanQ 10 df)).getD 0
      let latest_close := ilocLastQ df
      let _trend : Bool × MainSellReason :=
        if latest_close < latest_ma10 then (true, .maBreak) else (false, .noneYet)
      let _loss_pct := (pos.entry_price - (current_price : ℚ)) / pos.entry_price * 100
      Except.error .stopLossPctMissing

/-- The loop body of `check_sell_signals` for one position: on
`Except.ok true` the sell order is submitted (its result only logged)
and the code appended to `positions_to_close`; a `continue` leaves the
accumulator alone; a raised exception is caught by the per-position
handler (lines 213-214), which logs the error and moves on. -/
def sellLoopBody (env : Market) (acc : List String) (cp : String × MainPosition) :
    List String :=
  match sellSignalStep env cp.1 cp.2 with
  | .ok true =>
    let _ok := execute_sell_order env cp.1 cp.2
    acc ++ [cp.1]
  | .ok false => acc
  | .error _ => acc

/-- `AutoTrader.check_sell_signals` (lines 168-218): run the
per-position body over every held position, collecting
`positions_to_close`, then delete every collected code from the
position map. -/
def check_sell_signals (env : Market) (tr : Trader) : Trader :=
  let positions_to_close := tr.positions.foldl (sellLoopBody env) []
  { positions := tr.positions.filter (fun cp => ¬ positions_to_close.contains cp.1) }

/-- `AutoTrader.is_market_open` (lines 77-87).  `weekday` is Python's
`datetime.weekday()` (Monday = 0); `timeMin` is the wall-clock time in
minutes since midnight.  The source compares zero-padded `"HH:MM"`
strings, whose lexicographic order coincides with the numeric order of
minutes-since-midnight; `"09:00"` is minute 540 and `"15:20"` is minute
920, and both comparisons are inclusive. -/
def is_market_open (weekday timeMin : ℕ) : Bool :=
  if 5 ≤ weekday then false
  else decide (540 ≤ timeMin ∧ timeMin ≤ 920)

/-- One iteration of `AutoTrader.trading_loop` (lines 263-281) restricted
to its effect on the position map: outside market hours the cycle only
sleeps and skips.  The buy phase never mutates `positions` as written
(`strategy.check_buy_signal` does not exist, so each instrument raises
and is skipped by the per-instrument handler at line 117), and
`monitor_positions` only logs, so the sell phase is the only candidate
mutator of the position map. -/
def trading_cycle (env : Market) (tr : Trader) (weekday timeMin : ℕ) : Trader :=
  if is_market_open weekday timeMin then check_sell_signals env tr
  else tr

/-! ## Derived accessors and concrete inputs used by the verification -/

/-- The convergence series produced by `calculate_ma_convergence`
(the component `check_buy_conditions` consumes). -/
def convergenceCol (prices : List ℚ) : Option (List (Option ℚ)) :=
  (calculate_ma_convergence prices).map (fun t => t.2.2.2)

/-- The bandwidth series produced by `calculate_bollinger_bands`. -/
noncomputable def bandwidthCol (prices : List ℚ) : Option (List (Option ℝ)) :=
  (calculate_bollinger_bands prices).map (fun t => t.2.2.1)

/-- The historical-minimum-bandwidth series produced by
`calculate_bollinger_bands` (`none` both when the band guard fails and
when the lookback guard fails, the two `insufficient` outcomes). -/
noncomputable def historicalCol (prices : List ℚ) : Option (List (Option ℝ)) :=
  (calculate_bollinger_bands prices).bind (fun t => t.2.2.2)

/-- The `BB_Width` column produced by
`KiwoomAPI.calculate_bollinger_bands`. -/
noncomputable def kiwoomWidthCol (close : List ℚ) : Option (List (Option ℝ)) :=
  (kiwoom_calculate_bollinger_bands close).map (fun t => t.2.2.2.2)

/-- Canonical shape of every rolling result in this development: defined
from index `w - 1` on with value `g i`, NaN before. -/
def stepFun (w : ℕ) (g : ℕ → α) : ℕ → Option α :=
  fun i => if w ≤ i + 1 then some (g i) else none

/-- A series whose entry at index `i` is `stepFun w g i`. -/
def stepSeries (n w : ℕ) (g : ℕ → α) : List (Option α) :=
  (List.range n).map (stepFun w g)

/-- Invariant claimed for `OptionTradingStrategy`: while a position is
held, the entry price lies in the configured trading band. -/
def StrategyInv (st : Strategy) : Prop :=
  st.position.isSome → priceRangeLo ≤ st.entry_price ∧ st.entry_price ≤ priceRangeHi

/-- A FLAT strategy state holding 119 bars of constant price 1.0 — a
price far outside the trading band `[0.1, 0.3]`. -/
def bandCxStrategy : Strategy :=
  { position := none, entry_price := 0, entry_time := none,
    price_data := List.replicate 119 1 }

/-- A market in which every quote is unavailable and every raw order
submission is rejected (result code 1). -/
def deadMarket : Market :=
  { currentPrice := fun _ => 0, bid := fun _ => 0, ask := fun _ => 0,
    sendRaw := fun _ _ _ _ _ => 1, minuteData := fun _ => [] }

/-- A market for the order-failure scenario: the instrument trades at 80
with no visible quotes, 10 bars of flat history at 80, and a broker that
rejects every submission. -/
def failMarket : Market :=
  { currentPrice := fun _ => 80, bid := fun _ => 0, ask := fun _ => 0,
    sendRaw := fun _ _ _ _ _ => 1, minuteData := fun _ => List.replicate 10 (80 : ℚ) }

/-- A trader holding one position entered at 100, now quoted at 80:
a 20 % loss, so the stop-loss fires. -/
def failTrader : Trader :=
  { positions := [("201W1001", { name := "optA", quantity := 1, entry_price := 100 })] }

/-- A strategy state holding a position entered at 0.20 whose latest
close 0.17 is a 15 % loss. -/
def stopLossStrategy : Strategy :=
  { position := some { code := "201W1001", entry_price := 2/10, entry_time := 0, quantity := 1 },
    entry_price := 2/10, entry_time := some 0,
    price_data := List.replicate 9 (2/10 : ℚ) ++ [17/100] }

/-! ## Helper lemmas about windows, step series and rolling operators -/

lemma length_stepSeries (n w : ℕ) (g : ℕ → α) : (stepSeries n w g).length = n := by
  simp [stepSeries]

lemma rollingQ_eq_stepSeries (f : List ℚ → ℚ) (w : ℕ) (l : List ℚ) :
    rollingQ f w l = stepSeries l.length w (fun i => f (window l w i)) := rfl

lemma rollingR_eq_stepSeries (f : List ℚ → ℝ) (w : ℕ) (l : List ℚ) :
    rollingR f w l = stepSeries l.length w (fun i => f (window l w i)) := rfl

lemma window_replicate (c : α) {w i n : ℕ} (h1 : w ≤ i + 1) (h2 : i < n) :
    window (List.replicate n c) w i = List.replicate w c := by
  unfold window
  rw [List.take_replicate, List.drop_replicate]
  congr 1
  omega

lemma meanQ_replicate (c : ℚ) {w : ℕ} (h : 0 < w) : meanQ (List.replicate w c) = c := by
  have hw : (w : ℚ) ≠ 0 := Nat.cast_ne_zero.mpr h.ne'
  unfold meanQ
  rw [List.sum_replicate, List.length_replicate, nsmul_eq_mul]
  field_simp

lemma sampleVarQ_replicate (c : ℚ) {w : ℕ} : sampleVarQ (List.replicate w c) = 0 := by
  rcases Nat.eq_zero_or_pos w with h | h
  · subst h; simp [sampleVarQ, meanQ]
  · unfold sampleVarQ
    rw [List.map_replicate, meanQ_replicate c h]
    simp

lemma sampleStd_replicate (c : ℚ) {w : ℕ} : sampleStd (List.replicate w c) = 0 := by
  unfold sampleStd
  rw [sampleVarQ_replicate]
  simp

lemma rollingQ_replicate (f : List ℚ → ℚ) (w n : ℕ) (c v : ℚ)
    (hv : f (List.replicate w c) = v) :
    rollingQ f w (List.replicate n c) = stepSeries n w (fun _ => v) := by
  unfold rollingQ stepSeries stepFun
  rw [List.length_replicate]
  apply List.map_congr_left
  intro i hi
  rw [List.mem_range] at hi
  by_cases hw : w ≤ i + 1
  · rw [if_pos hw, if_pos hw, window_replicate c hw hi, hv]
  · rw [if_neg hw, if_neg hw]

lemma rollingR_replicate (f : List ℚ → ℝ) (w n : ℕ) (c : ℚ) (v : ℝ)
    (hv : f (List.replicate w c) = v) :
    rollingR f w (List.replicate n c) = stepSeries n w (fun _ => v) := by
  unfold rollingR stepSeries stepFun
  rw [List.length_replicate]
  apply List.map_congr_left
  intro i hi
  rw [List.mem_range] at hi
  by_cases hw : w ≤ i + 1
  · rw [if_pos hw, if_pos hw, window_replicate c hw hi, hv]
  · rw [if_neg hw, if_neg hw]

lemma zipSeries_stepSeries (f : α → α → α) (n w w' : ℕ) (g h : ℕ → α) :
    zipSeries f (stepSeries n w g) (stepSeries n w' h) =
      stepSeries n (max w w') (fun i => f (g i) (h i)) := by
  unfold zipSeries stepSeries
  rw [List.zipWith_map, List.zipWith_same]
  apply List.map_congr_left
  intro i _
  by_cases h1 : w ≤ i + 1 <;> by_cases h2 : w' ≤ i + 1 <;>
    simp [stepFun, omap2, h1, h2, max_le_iff]

lemma stepSeries_congr (n w : ℕ) (g g' : ℕ → α) (h : ∀ i, g i = g' i) :
    stepSeries n w g = stepSeries n w g' := by
  unfold stepSeries stepFun
  apply List.map_congr_left
  intro i _
  rw [h i]

lemma ilocLastO_map_range (F : ℕ → Option α) {n : ℕ} (hn : 0 < n) :
    ilocLastO ((List.range n).map F) = F (n - 1) := by
  unfold ilocLastO
  rw [List.getLast?_map]
  obtain ⟨m, rfl⟩ : ∃ m, n = m + 1 := ⟨n - 1, by omega⟩
  rw [List.range_succ, List.getLast?_concat]
  simp

lemma ilocLastO_stepSeries (g : ℕ → α) {n w : ℕ} (hn : 0 < n) (hw : w ≤ n) :
    ilocLastO (stepSeries n w g) = some (g (n - 1)) := by
  unfold stepSeries
  rw [ilocLastO_map_range _ hn]
  unfold stepFun
  rw [if_pos (by omega)]

lemma filterMap_stepFun_all (g : ℕ → α) (w : ℕ) (l : List ℕ) (h : ∀ j ∈ l, w ≤ j + 1) :
    (l.map (stepFun w g)).filterMap id = l.map g := by
  induction l with
  | nil => simp
  | cons a t ih =>
    have ha : w ≤ a + 1 := h a (List.mem_cons_self a t)
    simp only [List.map_cons, stepFun, if_pos ha, List.filterMap_cons, id]
    rw [ih (fun j hj => h j (List.mem_cons_of_mem a hj))]

lemma filterMap_stepFun_none (g : ℕ → α) (w : ℕ) (l : List ℕ) (h : ∀ j ∈ l, j + 1 < w) :
    (l.map (stepFun w g)).filterMap id = [] := by
  induction l with
  | nil => simp
  | cons a t ih =>
    have ha : ¬ w ≤ a + 1 := by
      have := h a (List.mem_cons_self a t); omega
    simp only [List.map_cons, stepFun, if_neg ha, List.filterMap_cons, id]
    exact ih (fun j hj => h j (List.mem_cons_of_mem a hj))

lemma drop_range (k n : ℕ) (h : k ≤ n) : (List.range n).drop k = List.range' k (n - k) := by
  rw [List.range_eq_range']
  have hsplit := List.range'_append 0 k (n - k) 1
  simp only [one_mul, zero_add] at hsplit
  rw [Nat.sub_add_cancel h] at hsplit
  rw [← hsplit]
  calc (List.range' 0 k ++ List.range' k (n - k)).drop k
      = (List.range' 0 k ++ List.range' k (n - k)).drop (List.range' 0 k).length := by
        simp
    _ = List.range' k (n - k) := List.drop_left _ _

lemma window_stepSeries_last (w W n : ℕ) (g : ℕ → α) (hW : W ≤ n) (hn : 0 < n) :
    window (stepSeries n w g) W (n - 1) = (List.range' (n - W) W).map (stepFun w g) := by
  unfold window stepSeries
  have h1 : n - 1 + 1 = n := by omega
  rw [h1]
  rw [List.take_of_length_le (by simp)]
  rw [← List.map_drop]
  rw [drop_range (n - W) n (by omega)]
  congr 2
  omega

lemma foldl_min_const (v : ℝ) : ∀ l : List ℕ, ((l.map (fun _ => v)).foldl min v) = v
  | [] => rfl
  | _ :: t => by
    simp only [List.map_cons, List.foldl_cons, min_self]
    exact foldl_min_const v t

lemma listMinR_map_const (l : List ℕ) (v : ℝ) (hl : l ≠ []) :
    listMinR (l.map (fun _ => v)) = some v := by
  cases l with
  | nil => exact absurd rfl hl
  | cons a t =>
    simp only [List.map_cons, listMinR]
    rw [foldl_min_const v t]

lemma listMinR_isSome (l : List ℝ) (hl : l ≠ []) : (listMinR l).isSome := by
  cases l with
  | nil => exact absurd rfl hl
  | cons a t => simp [listMinR]

/-! ## Indicator computations on constant price series -/

lemma calc_ma_conv_replicate (c : ℚ) {n : ℕ} (h : maPeriod3 ≤ n) :
    calculate_ma_convergence (List.replicate n c) =
      some (stepSeries n maPeriod1 (fun _ => c), stepSeries n maPeriod2 (fun _ => c),
        stepSeries n maPeriod3 (fun _ => c), stepSeries n maPeriod3 (fun _ => 0)) := by
  unfold calculate_ma_convergence
  rw [List.length_replicate, if_neg (by omega)]
  rw [rollingQ_replicate meanQ maPeriod1 n c c (meanQ_replicate c (by norm_num [maPeriod1]))]
  rw [rollingQ_replicate meanQ maPeriod2 n c c (meanQ_replicate c (by norm_num [maPeriod2]))]
  rw [rollingQ_replicate meanQ maPeriod3 n c c (meanQ_replicate c (by norm_num [maPeriod3]))]
  simp only [zipSeries_stepSeries, max_self, min_self, sub_self]
  norm_num [maPeriod1, maPeriod2, maPeriod3]

lemma calc_bb_replicate (c : ℚ) {n : ℕ} (h : bollPeriod ≤ n) :
    calculate_bollinger_bands (List.replicate n c) =
      some (stepSeries n bollPeriod (fun _ => (c : ℝ)),
        stepSeries n bollPeriod (fun _ => (c : ℝ)),
        stepSeries n bollPeriod (fun _ => (0 : ℝ)),
        if lookbackPeriod ≤ n then
          some (rollingMinR lookbackPeriod lookbackPeriod
            (stepSeries n bollPeriod (fun _ => (0 : ℝ))))
        else none) := by
  unfold calculate_bollinger_bands
  rw [List.length_replicate, if_neg (by omega)]
  rw [rollingR_replicate (fun l => ((meanQ l : ℚ) : ℝ)) bollPeriod n c (c : ℝ)
    (by show ((meanQ (List.replicate bollPeriod c) : ℚ) : ℝ) = (c : ℝ)
        rw [meanQ_replicate c (by norm_num [bollPeriod])])]
  rw [rollingR_replicate sampleStd bollPeriod n c 0 (sampleStd_replicate c)]
  simp only [zipSeries_stepSeries, max_self, length_stepSeries]
  norm_num

lemma strategy_hist_last_119 :
    ilocLastO (rollingMinR lookbackPeriod lookbackPeriod
      (stepSeries 119 bollPeriod (fun _ => (0 : ℝ)))) = some 0 := by
  unfold rollingMinR
  rw [length_stepSeries]
  rw [ilocLastO_map_range _ (by norm_num)]
  rw [window_stepSeries_last bollPeriod lookbackPeriod 119 _ (by norm_num [lookbackPeriod]) (by norm_num)]
  rw [filterMap_stepFun_all _ bollPeriod _ (by
    intro j hj
    rw [List.mem_range'_1] at hj
    norm_num [lookbackPeriod] at hj
    norm_num [bollPeriod]
    omega)]
  have hlen : ((List.range' (119 - lookbackPeriod) lookbackPeriod).map (fun _ => (0 : ℝ))).length
      = lookbackPeriod := by simp
  rw [if_pos (le_of_eq hlen.symm)]
  rw [listMinR_map_const _ _ (by
    have : (List.range' (119 - lookbackPeriod) lookbackPeriod).length = lookbackPeriod := by simp
    intro hnil
    rw [hnil] at this
    norm_num [lookbackPeriod] at this)]

lemma ilocLastQ_replicate (c : ℚ) {n : ℕ} (hn : 0 < n) :
    ilocLastQ (List.replicate n c) = c := by
  unfold ilocLastQ
  rw [List.getLast?_replicate, if_neg (by omega)]
  rfl

lemma check_buy_replicate (st : Strategy) (c : ℚ) (hc : 0 ≤ c)
    (hd : st.price_data = List.replicate 119 c) :
    check_buy_conditions st := by
  unfold check_buy_conditions
  rw [hd, List.length_replicate]
  rw [if_neg (by norm_num [maPeriod3, lookbackPeriod])]
  rw [calc_ma_conv_replicate c (by norm_num [maPeriod3])]
  rw [calc_bb_replicate c (by norm_num [bollPeriod])]
  rw [if_pos (by norm_num [lookbackPeriod])]
  simp only []
  constructor
  · rw [ilocLastO_stepSeries _ (by norm_num) (by norm_num [maPeriod3])]
    rw [ilocLastQ_replicate c (by norm_num)]
    unfold oleQ
    positivity
  · rw [ilocLastO_stepSeries _ (by norm_num) (by norm_num [bollPeriod])]
    rw [strategy_hist_last_119]
    unfold oleR
    norm_num

lemma kiwoom_width_stepSeries (l : List ℚ) (h : bollPeriod ≤ l.length) :
    ∃ g : ℕ → ℝ, kiwoomWidthCol l = some (stepSeries l.length bollPeriod g) := by
  unfold kiwoomWidthCol kiwoom_calculate_bollinger_bands
  rw [if_neg (by omega)]
  simp only [rollingR_eq_stepSeries, zipSeries_stepSeries, max_self, Option.map_some]
  exact ⟨_, rfl⟩

lemma filterMap_stepFun_range'_low (g : ℕ → α) (w a m : ℕ)
    (ha : a ≤ w - 1) (hm : w - 1 ≤ a + m) :
    ((List.range' a m).map (stepFun w g)).filterMap id =
      (List.range' (w - 1) (a + m - (w - 1))).map g := by
  have hsplit := List.range'_append a (w - 1 - a) (a + m - (w - 1)) 1
  simp only [one_mul] at hsplit
  have e1 : a + (w - 1 - a) = w - 1 := by omega
  have e2 : a + m - (w - 1) + (w - 1 - a) = m := by omega
  rw [e1, e2] at hsplit
  rw [← hsplit, List.map_append, List.filterMap_append]
  rw [filterMap_stepFun_none g w _ (by
    intro j hj
    rw [List.mem_range'_1] at hj
    omega)]
  rw [filterMap_stepFun_all g w _ (by
    intro j hj
    rw [List.mem_range'_1] at hj
    omega)]
  rw [List.nil_append]

lemma kiwoom_hist_last_core (g : ℕ → ℝ) (n : ℕ) (h1 : lookbackPeriod ≤ n) (h2 : n ≤ 119) :
    ilocLastO (rollingMinR lookbackPeriod 1 (stepSeries n bollPeriod g)) =
      listMinR ((stepSeries n bollPeriod g).filterMap id) ∧
    (stepSeries n bollPeriod g).filterMap id ≠ [] := by
  have hb : (100 : ℕ) ≤ n := by norm_num [lookbackPeriod] at h1; exact h1
  have hcol : (stepSeries n bollPeriod g).filterMap id =
      (List.range' (bollPeriod - 1) (0 + n - (bollPeriod - 1))).map g := by
    unfold stepSeries
    rw [List.range_eq_range']
    exact filterMap_stepFun_range'_low g bollPeriod 0 n (by norm_num [bollPeriod])
      (by norm_num [bollPeriod]; omega)
  constructor
  · unfold rollingMinR
    rw [length_stepSeries]
    rw [ilocLastO_map_range _ (by omega)]
    rw [window_stepSeries_last bollPeriod lookbackPeriod n g (by omega) (by omega)]
    rw [filterMap_stepFun_range'_low g bollPeriod (n - lookbackPeriod) lookbackPeriod
      (by norm_num [bollPeriod, lookbackPeriod]; omega)
      (by norm_num [bollPeriod, lookbackPeriod])]
    rw [if_pos (by
      simp only [List.length_map, List.length_range']
      norm_num [bollPeriod, lookbackPeriod]
      omega)]
    rw [hcol]
    congr 2
    norm_num [bollPeriod, lookbackPeriod]
    omega
  · rw [hcol]
    intro hnil
    have := congrArg List.length hnil
    simp at this
    norm_num [bollPeriod] at this
    omega

/-! ## Order-execution and signal-evaluation lemmas -/

lemma smartOrderGo_eq_specScan (submit : ℤ → Bool) (ot : OrderSide) (base : ℤ) :
    ∀ (fuel a : ℕ), smartOrderGo submit ot base a fuel =
      specScan submit ((List.range' a fuel).map (orderPrice ot base)) := by
  intro fuel
  induction fuel with
  | zero => intro a; rfl
  | succ m ih =>
    intro a
    rw [List.range'_succ, List.map_cons]
    simp only [smartOrderGo, specScan]
    rw [ih (a + 1)]

lemma specScan_true_iff (submit : ℤ → Bool) :
    ∀ L : List ℤ, (specScan submit L).1 = true ↔ ∃ p ∈ L, submit p = true := by
  intro L
  induction L with
  | nil => simp [specScan]
  | cons p ps ih =>
    by_cases hp : submit p
    · simp [specScan, hp]
    · simp [specScan, hp, ih]

lemma get_signal_state_eq (s : Strategy) : (get_signal s).2 = s := by
  unfold get_signal
  cases hp : s.position
  · dsimp only
    split <;> rfl
  · dsimp only
    split <;> rfl

lemma sellSignalStep_ne_ok_true (env : Market) (code : String) (pos : MainPosition) :
    sellSignalStep env code pos ≠ Except.ok true := by
  unfold sellSignalStep
  dsimp only
  split
  · simp
  · split
    · simp
    · simp

lemma sellLoopBody_id (env : Market) (acc : List String) (cp : String × MainPosition) :
    sellLoopBody env acc cp = acc := by
  unfold sellLoopBody
  cases hs : sellSignalStep env cp.1 cp.2 with
  | ok b =>
    cases b
    · rfl
    · exact absurd hs (sellSignalStep_ne_ok_true env cp.1 cp.2)
  | error e => rfl

lemma check_sell_signals_id (env : Market) (tr : Trader) :
    check_sell_signals env tr = tr := by
  have hfold : ∀ l : List (String × MainPosition), l.foldl (sellLoopBody env) [] = [] := by
    intro l
    induction l with
    | nil => rfl
    | cons a t ih =>
      rw [List.foldl_cons, sellLoopBody_id]
      exact ih
  unfold check_sell_signals
  rw [hfold tr.positions]
  dsimp only
  have hfilter : tr.positions.filter
      (fun cp => ¬ ([] : List String).contains cp.1) = tr.positions := by
    apply List.filter_eq_self.mpr
    intro a _
    simp
  rw [hfilter]

/-! ## Claim theorems -/

/-- Claim C1: when a cycle's sell processing runs — in particular in a
cycle where every `smart_order` attempt would be rejected — the
Position map is left unchanged: no position is removed, no realized
P&L is recorded, and the instrument is retried from scratch on the next
cycle.  This holds because every per-position evaluation raises
`AttributeError` at the `self.config.STOP_LOSS_PCT` read (line 204)
before the `should_sell` gate, and the per-position handler
(lines 213-214) catches it and moves on, so `positions_to_close` stays
empty for every market and every trader state; concretely, with a
position entered at 100, the instrument at 80 and a broker rejecting
all five submissions, the order procedure reports failure and the map
is untouched. -/
theorem claim_C1_order_failure_leaves_positions_unchanged :
    (∀ (env : Market) (code : String) (pos : MainPosition),
      sellSignalStep env code pos ≠ Except.ok true) ∧
    (∀ (env : Market) (tr : Trader), check_sell_signals env tr = tr) ∧
    (smart_order failMarket "201W1001" OrderSide.sell 1 5).1 = false ∧
    check_sell_signals failMarket failTrader = failTrader :=
  ⟨sellSignalStep_ne_ok_true, check_sell_signals_id, by decide,
   check_sell_signals_id failMarket failTrader⟩

set_option maxRecDepth 4000 in
/-- Claim C2 counterexample: with 119 bars of constant close 1.0 (price
outside the band `[0.1, 0.3]`) and no open position, both buy conditions
hold, yet `get_signal` emits `BUY`, not the `HOLD` the claim requires:
the price-band gate is absent from signal generation. -/
theorem claim_C2_counterexample :
    check_buy_conditions bandCxStrategy ∧
    ¬ is_valid_option_price (ilocLastQ bandCxStrategy.price_data) ∧
    (get_signal bandCxStrategy).1 = Signal.buy := by
  have hbuy : check_buy_conditions bandCxStrategy :=
    check_buy_replicate bandCxStrategy 1 (by norm_num) rfl
  refine ⟨hbuy, ?_, ?_⟩
  · have : ilocLastQ bandCxStrategy.price_data = 1 :=
      ilocLastQ_replicate 1 (by norm_num)
    rw [this]
    intro hv
    have := hv.2
    norm_num [priceRangeHi] at this
  · unfold get_signal
    have hp : bandCxStrategy.position = none := rfl
    rw [hp]
    dsimp only
    rw [if_pos hbuy]

/-- Claim C2 amended: when the state machine is FLAT and the two
indicator conditions hold, `get_signal` emits `BUY` even if the current
price lies outside the acceptable band; the band gate is enforced only
at position entry, where `enter_position` rejects an out-of-band price
and leaves the state unchanged. -/
theorem claim_C2_amended :
    (∀ st : Strategy, st.position = none → check_buy_conditions st →
      (get_signal st).1 = Signal.buy) ∧
    (∀ (st : Strategy) (code : String) (p : ℚ) (now : ℕ),
      ¬ is_valid_option_price p → enter_position st code p now = (false, st)) := by
  constructor
  · intro st hp hbuy
    unfold get_signal
    rw [hp]
    dsimp only
    rw [if_pos hbuy]
  · intro st code p now hnp
    unfold enter_position
    rw [if_neg hnp]

set_option maxRecDepth 4000 in
/-- Witness for the amended claim C2 at concrete inputs. -/
theorem claim_C2_amended_witness :
    (get_signal bandCxStrategy).1 = Signal.buy ∧
    enter_position Strategy.init "201W1001" 1 0 = (false, Strategy.init) :=
  ⟨claim_C2_amended.1 bandCxStrategy rfl (check_buy_replicate bandCxStrategy 1 (by norm_num) rfl),
   claim_C2_amended.2 Strategy.init "201W1001" 1 0
     (by norm_num [is_valid_option_price, priceRangeLo, priceRangeHi])⟩

/-- Claim C3 counterexample: on a 20-bar series (at least `bandPeriod`
bars, fewer than the lookback) the historical-minimum-bandwidth
indicator is `None` in `strategy.py` (its lookback guard fails) and the
`Historical_Min_BB_Width` column is likewise never added in
`kiwoom_api.py` (its `len(df) < lookback_period` guard returns the
DataFrame unchanged) — the indicator is `insufficient`, refuting the
claim that one bandwidth value suffices. -/
theorem claim_C3_counterexample :
    historicalCol (List.replicate 20 (1 : ℚ)) = none ∧
    calculate_historical_bb_width (List.replicate 20 (1 : ℚ))
      ((kiwoomWidthCol (List.replicate 20 (1 : ℚ))).getD []) = none := by
  constructor
  · unfold historicalCol
    rw [calc_bb_replicate 1 (by norm_num [bollPeriod])]
    rw [if_neg (by norm_num [lookbackPeriod])]
    rfl
  · unfold calculate_historical_bb_width
    rw [List.length_replicate, if_pos (by norm_num [lookbackPeriod])]

/-- Claim C3 amended: the `min_periods=1` progressive-minimum behaviour
only takes effect once the series has at least `lookback` (100) bars;
for every series with `100 ≤ len ≤ 118` bars (fewer than the full
`bandPeriod + lookback − 1 = 119` bars of history), the kiwoom
historical-minimum column is defined at the latest bar and equals the
minimum of all bandwidth values available so far. -/
theorem claim_C3_amended (l : List ℚ) (h1 : lookbackPeriod ≤ l.length)
    (h2 : l.length ≤ 118) :
    ∃ wcol, kiwoomWidthCol l = some wcol ∧
      ∃ hm, calculate_historical_bb_width l wcol = some hm ∧
        (ilocLastO hm).isSome ∧
        ilocLastO hm = listMinR (wcol.filterMap id) := by
  have hb : bollPeriod ≤ l.length := by
    norm_num [bollPeriod, lookbackPeriod] at h1 ⊢
    omega
  obtain ⟨g, hg⟩ := kiwoom_width_stepSeries l hb
  refine ⟨_, hg, ?_⟩
  unfold calculate_historical_bb_width
  rw [if_neg (by omega)]
  have core := kiwoom_hist_last_core g l.length h1 (by omega)
  exact ⟨_, rfl, by rw [core.1]; exact listMinR_isSome _ core.2, core.1⟩

/-- Witness for the amended claim C3 at a concrete 100-bar series. -/
theorem claim_C3_amended_witness :
    lookbackPeriod ≤ (List.replicate 100 (1 : ℚ)).length ∧
    (List.replicate 100 (1 : ℚ)).length ≤ 118 ∧
    (∃ wcol, kiwoomWidthCol (List.replicate 100 (1 : ℚ)) = some wcol ∧
      ∃ hm, calculate_historical_bb_width (List.replicate 100 (1 : ℚ)) wcol = some hm ∧
        (ilocLastO hm).isSome ∧
        ilocLastO hm = listMinR (wcol.filterMap id)) :=
  ⟨by simp [lookbackPeriod], by simp,
   claim_C3_amended _ (by simp [lookbackPeriod]) (by simp)⟩

/-- Claim C4: `smart_order` seeds its base price from the ask (BUY) or
bid (SELL) when positive and from the last trade price otherwise, then
submits limit prices `basePrice ± 5·attempt` for attempts `0..n-1` in
order, succeeding at the first acknowledged submission and failing only
after all attempts are exhausted — it equals the spec-modelled scan of
the spec-modelled price ladder, whose concrete BUY ladder from 100 is
`[100,105,110,115,120]` and SELL ladder is `[100,95,90,85,80]`. -/
theorem claim_C4_smart_order_ladder (env : Market) (code : String)
    (ot : OrderSide) (qty n : ℕ) :
    smart_order env code ot qty n =
      specScan (fun p => send_order env code ot qty p)
        (specLadder ot (smartBasePrice env code ot) n) ∧
    ((smart_order env code ot qty n).1 = true ↔
      ∃ p ∈ specLadder ot (smartBasePrice env code ot) n,
        send_order env code ot qty p = true) ∧
    specLadder OrderSide.buy 100 5 = [100, 105, 110, 115, 120] ∧
    specLadder OrderSide.sell 100 5 = [100, 95, 90, 85, 80] := by
  have heq : smart_order env code ot qty n =
      specScan (fun p => send_order env code ot qty p)
        (specLadder ot (smartBasePrice env code ot) n) := by
    unfold smart_order specLadder get_bid_ask_price smartBasePrice
    rw [List.range_eq_range']
    cases ot <;> exact smartOrderGo_eq_specScan _ _ _ n 0
  refine ⟨heq, ?_, by decide, by decide⟩
  rw [heq]
  exact specScan_true_iff _ _

/-- Claim C5: from OPEN with at least `exit_ma_period` bars of price
data, a loss rate of at least `stop_loss_rate` always yields SELL with
the stop-loss reason: in `check_sell_conditions` the stop-loss test
precedes the trend-exit test, so it wins even when the latest close is
simultaneously below the 10-bar moving average.  (The sell branch of
`main.py` never completes — its stop-loss comparison raises
`AttributeError`, see `sellSignalStep` — so `strategy.py`'s
`check_sell_conditions` is the signal evaluator this claim is about.) -/
theorem claim_C5_stop_loss_priority :
    ∀ (st : Strategy) (p : StratPosition), st.position = some p →
      exitMaPeriod ≤ st.price_data.length →
      stopLossRate ≤ (st.entry_price - ilocLastQ st.price_data) / st.entry_price →
      check_sell_conditions st =
        (true, SellReason.stopLoss
          ((st.entry_price - ilocLastQ st.price_data) / st.entry_price)) := by
  intro st p hp hlen hloss
  unfold check_sell_conditions
  rw [hp]
  dsimp only
  rw [if_neg (not_lt.mpr hlen), if_pos hloss]

/-- Witness for claim C5: a position entered at 0.20 with latest close
0.17 (a 15 % loss). -/
theorem claim_C5_witness :
    exitMaPeriod ≤ stopLossStrategy.price_data.length ∧
    stopLossRate ≤ (stopLossStrategy.entry_price -
      ilocLastQ stopLossStrategy.price_data) / stopLossStrategy.entry_price ∧
    check_sell_conditions stopLossStrategy =
      (true, SellReason.stopLoss ((stopLossStrategy.entry_price -
        ilocLastQ stopLossStrategy.price_data) / stopLossStrategy.entry_price)) := by
  have hlast : ilocLastQ stopLossStrategy.price_data = 17/100 := by
    unfold ilocLastQ stopLossStrategy
    rw [List.getLast?_concat]
    rfl
  have hlen : exitMaPeriod ≤ stopLossStrategy.price_data.length := by
    unfold stopLossStrategy exitMaPeriod
    simp
  have hloss : stopLossRate ≤ (stopLossStrategy.entry_price -
      ilocLastQ stopLossStrategy.price_data) / stopLossStrategy.entry_price := by
    rw [hlast]
    unfold stopLossStrategy stopLossRate
    norm_num
  exact ⟨hlen, hloss,
    claim_C5_stop_loss_priority stopLossStrategy _ rfl hlen hloss⟩

/-- Claim C6 counterexample: on a Monday (weekday 0) at exactly 15:20
(minute 920) `is_market_open` returns `true` — the source compares
`current_time <= "15:20"` inclusively, so the cycle is NOT skipped at
15:20, refuting the half-open interval `[09:00, 15:20)`. -/
theorem claim_C6_counterexample : is_market_open 0 920 = true := by decide

/-- Claim C6 amended: the trading loop performs its work exactly on
weekdays with the wall-clock time in the CLOSED interval
`[09:00, 15:20]` (both bounds inclusive); outside that window the cycle
leaves the position state untouched. -/
theorem claim_C6_amended :
    (∀ wd t : ℕ, is_market_open wd t = true ↔ wd < 5 ∧ 540 ≤ t ∧ t ≤ 920) ∧
    (∀ (env : Market) (tr : Trader) (wd t : ℕ),
      is_market_open wd t = false → trading_cycle env tr wd t = tr) := by
  constructor
  · intro wd t
    unfold is_market_open
    by_cases h : 5 ≤ wd
    · simp only [if_pos h, Bool.false_eq_true, false_iff]
      omega
    · simp only [if_neg h, decide_eq_true_eq]
      omega
  · intro env tr wd t h
    unfold trading_cycle
    rw [h]
    rfl

/-- Witness for the amended claim C6: Saturday mid-morning is closed and
the cycle is a no-op on a concrete trader state. -/
theorem claim_C6_amended_witness :
    is_market_open 6 600 = false ∧
    trading_cycle deadMarket failTrader 6 600 = failTrader :=
  ⟨by decide, claim_C6_amended.2 deadMarket failTrader 6 600 (by decide)⟩

/-- Claim C7: on a perfectly flat close series with at least
`longPeriod = 60` bars, the moving-average convergence at the latest
bar is 0 and the current Bollinger bandwidth at the latest bar is 0. -/
theorem claim_C7_flat_series (l : List ℚ) (c : ℚ) (hlen : maPeriod3 ≤ l.length)
    (hc : ∀ x ∈ l, x = c) :
    (∃ conv, convergenceCol l = some conv ∧ ilocLastO conv = some 0) ∧
    (∃ bw, bandwidthCol l = some bw ∧ ilocLastO bw = some 0) := by
  have h60 : 60 ≤ l.length := by norm_num [maPeriod3] at hlen; exact hlen
  have hl : l = List.replicate l.length c := List.eq_replicate_iff.mpr ⟨rfl, hc⟩
  have hconv := @calc_ma_conv_replicate c l.length (by norm_num [maPeriod3]; omega)
  rw [← hl] at hconv
  have hbb := @calc_bb_replicate c l.length (by norm_num [bollPeriod]; omega)
  rw [← hl] at hbb
  constructor
  · refine ⟨stepSeries l.length maPeriod3 (fun _ => (0 : ℚ)), ?_, ?_⟩
    · unfold convergenceCol
      rw [hconv]
      rfl
    · exact ilocLastO_stepSeries _ (by omega) (by norm_num [maPeriod3]; omega)
  · refine ⟨stepSeries l.length bollPeriod (fun _ => (0 : ℝ)), ?_, ?_⟩
    · unfold bandwidthCol
      rw [hbb]
      rfl
    · exact ilocLastO_stepSeries _ (by omega) (by norm_num [bollPeriod]; omega)

/-- Witness for claim C7 at 60 bars of constant close 1. -/
theorem claim_C7_witness :
    maPeriod3 ≤ (List.replicate 60 (1 : ℚ)).length ∧
    ((∃ conv, convergenceCol (List.replicate 60 (1 : ℚ)) = some conv ∧
        ilocLastO conv = some 0) ∧
     (∃ bw, bandwidthCol (List.replicate 60 (1 : ℚ)) = some bw ∧
        ilocLastO bw = some 0)) :=
  ⟨by simp [maPeriod3],
   claim_C7_flat_series _ 1 (by simp [maPeriod3])
     (fun x hx => List.eq_of_mem_replicate hx)⟩

/-- Claim C8: `get_signal` never mutates the strategy state (position,
entry price, entry time and price data are returned unchanged), and
evaluating it twice in succession yields the identical signal. -/
theorem claim_C8_signal_idempotent (st : Strategy) :
    (get_signal st).2 = st ∧
    (get_signal ((get_signal st).2)).1 = (get_signal st).1 := by
  refine ⟨get_signal_state_eq st, ?_⟩
  rw [get_signal_state_eq st]

/-- Claim C9: the invariant "while a position is held, `entry_price`
lies in the band `[0.1, 0.3]`" holds initially and is preserved by
every state-changing operation of `OptionTradingStrategy`; in
particular `entry_price` is nonzero while a position exists, so the
divisions by `entry_price` in `check_sell_conditions`, `exit_position`
and `get_strategy_status` have nonzero denominators. -/
theorem claim_C9_invariant :
    StrategyInv Strategy.init ∧
    (∀ (st : Strategy) (d : List ℚ), StrategyInv st →
      StrategyInv (update_price_data st d)) ∧
    (∀ (st : Strategy) (code : String) (p : ℚ) (now : ℕ), StrategyInv st →
      StrategyInv (enter_position st code p now).2) ∧
    (∀ st : Strategy, StrategyInv st → StrategyInv (exit_position st).2) ∧
    (∀ st : Strategy, StrategyInv st → StrategyInv (get_signal st).2) ∧
    (∀ st : Strategy, StrategyInv st → st.position.isSome →
      st.entry_price ≠ 0) := by
  refine ⟨?_, ?_, ?_, ?_, ?_, ?_⟩
  · intro h
    simp [Strategy.init] at h
  · intro st d h
    exact h
  · intro st code p now h
    unfold enter_position
    by_cases hv : is_valid_option_price p
    · rw [if_pos hv]
      intro _
      exact hv
    · rw [if_neg hv]
      exact h
  · intro st h
    unfold exit_position
    cases hp : st.position
    · exact h
    · intro hs
      simp at hs
  · intro st h
    rw [get_signal_state_eq st]
    exact h
  · intro st h hsome h0
    have hband := h hsome
    rw [h0] at hband
    norm_num [priceRangeLo] at hband

/-- Witness for claim C9: entering a position at the in-band price 0.20
from the initial state preserves the invariant, and the entry price in
the resulting state is nonzero. -/
theorem claim_C9_witness :
    StrategyInv (enter_position Strategy.init "201W1001" (2/10) 0).2 ∧
    (enter_position Strategy.init "201W1001" (2/10) 0).2.entry_price ≠ 0 := by
  have hinit : StrategyInv Strategy.init :=
    claim_C9_invariant.1
  have hinv : StrategyInv (enter_position Strategy.init "201W1001" (2/10) 0).2 :=
    claim_C9_invariant.2.2.1 Strategy.init "201W1001" (2/10) 0 hinit
  refine ⟨hinv, ?_⟩
  apply claim_C9_invariant.2.2.2.2.2 _ hinv
  norm_num [enter_position, is_valid_option_price, priceRangeLo, priceRangeHi, Strategy.init]

/-- Claim C10: `send_order` with price 0 uses hoga type `"03"` (market
order) rather than `"00"` (limit), and when the relevant quote and the
last trade price are both unavailable (0), the first ladder attempt of
`smart_order` is submitted at price 0 — i.e. as a market order. -/
theorem claim_C10_market_order_on_zero :
    (∀ (env : Market) (code : String) (ot : OrderSide) (qty : ℕ),
      send_order env code ot qty 0 =
        decide (env.sendRaw code (orderTypeCode ot) qty 0 "03" = 0)) ∧
    (∀ (env : Market) (code : String) (ot : OrderSide) (qty : ℕ),
      env.ask code = 0 → env.bid code = 0 → env.currentPrice code = 0 →
      (smart_order env code ot qty 5).2.head? = some 0) := by
  constructor
  · intro env code ot qty
    unfold send_order
    rw [if_pos rfl]
  · intro env code ot qty ha hb hc
    unfold smart_order get_bid_ask_price
    dsimp only
    have hbase : (match ot with
        | OrderSide.buy => if 0 < env.ask code then env.ask code
            else env.currentPrice code
        | OrderSide.sell => if 0 < env.bid code then env.bid code
            else env.currentPrice code) = 0 := by
      cases ot
      · rw [ha, hc]
        norm_num
      · rw [hb, hc]
        norm_num
    rw [hbase]
    have hp : orderPrice ot 0 0 = 0 := by
      cases ot <;> simp [orderPrice]
    show (smartOrderGo _ ot 0 0 (4 + 1)).2.head? = some 0
    simp only [smartOrderGo, hp]
    split
    · rfl
    · rfl

/-- Witness for claim C10 in a market with no quotes and no last trade
price. -/
theorem claim_C10_witness :
    (smart_order deadMarket "201W1001" OrderSide.buy 1 5).2.head? = some 0 :=
  claim_C10_market_order_on_zero.2 deadMarket "201W1001" OrderSide.buy 1 rfl rfl rfl
